import Mathlib

/-!
Verification development for the zammad-ticket-fetcher service.

The definitions below are a shallow embedding of the Python sources:
app/services/zammad_client.py (ticket pager, article fetcher, day
processor, retry wrapper), app/schemas.py (date validation and the
response schemas) and app/main.py (the range driver endpoint).

Network interaction is modelled by passing the remote service as an
explicit function: a search server maps a query string to its finite
list of result pages, and an article server maps a ticket id to the
outcome of the article listing call.  Python exceptions are modelled
with Except, and loops are modelled with an explicit fuel parameter
large enough for the loop to finish, which keeps every definition
executable; the adequacy of the fuel is proved, not assumed.
-/

set_option linter.unusedVariables false

deriving instance DecidableEq for Except

namespace Zammad

/-- A JSON value that can sit under the title key of a raw ticket:
either JSON null or a string.  Distinguishing the two matters because
the Python code calls strip() on the value, which raises on None. -/
inductive TitleVal where
  | tnull
  | tstr (s : String)
deriving DecidableEq, Repr

/-- One raw ticket object of a search page, restricted to the keys the
client reads: id, state_id, title and article_count.  A field that is
none models an absent key (dict.get returns the default for it). -/
structure RawTicket where
  id : Option Int
  state_id : Option Int
  title : Option TitleVal
  article_count : Option Int
deriving DecidableEq, Repr

/-- The filtered ticket dict built by fetch_all_tickets_for_date:
keys id, state, title, article_count. -/
structure Ticket where
  id : Int
  state : Option Int
  title : String
  article_count : Int
deriving DecidableEq, Repr

/-- One page payload of the ticket search, in one of the three shapes
named by the specification: a records dict with total_count, an assets
dict with tickets_count, or a bare list of ticket objects. -/
inductive SearchPayload where
  | dictRecords (records : List RawTicket) (total_count : Int)
  | dictAssets (ticketIds : List Int) (assetTickets : List RawTicket) (tickets_count : Int)
  | list (records : List RawTicket)
deriving DecidableEq, Repr

/-- The remote search endpoint: for a query string, the finite sequence
of its pages.  Pages past the end of the list are empty. -/
def Server : Type := String → List SearchPayload

/-- The query string built by get_tickets_for_date.  The use_range
argument of the Python function is accepted but never read: the query
is always the exact-day search. -/
def buildQuery (date_str : String) ( use_range : Bool) : String :=
  "created_at:" ++ date_str

/-- Page number page (1-based) of the response of the server to a query;
an out-of-range page is an empty bare list. -/
def pageAt (server : Server) (q : String) (page : Nat) : SearchPayload :=
  (server q).getD (page - 1) (SearchPayload.list [])

/-- Modelled from Pydantic v2 semantics: TicketSearchResponse is a plain
BaseModel (not a RootModel) whose only field is root, so model_validate
applied to a Python list always raises a ValidationError, because a list
is not a dict and BaseModel performs no list coercion. -/
def modelValidateTicketSearch (records : List RawTicket) : Except String (List RawTicket) :=
  Except.error "Input should be a valid dictionary or instance of TicketSearchResponse"

/-- ZammadClient.get_tickets_for_date: fetch one page.  A non-list
payload is logged and turned into an empty page; a list payload goes
through the (always failing) schema validation, whose except branch
returns the raw list unchanged. -/
def get_tickets_for_date (server : Server) (date_str : String) (page : Nat)
    ( use_range : Bool) : List RawTicket :=
  match pageAt server (buildQuery date_str use_range) page with
  | SearchPayload.list records =>
    match modelValidateTicketSearch records with
    | Except.ok validated => validated
    | Except.error _ => records
  | _ => []

/-- The title every shape of the pager drops: the exclusion sentinel. -/
def excludedTitle : String := "Undelivered Mail Returned to Sender"

/-- The ASCII whitespace characters str.strip removes. -/
def isStripChar (c : Char) : Bool :=
  c.toNat = 32 || c.toNat = 9 || c.toNat = 10 || c.toNat = 13 || c.toNat = 11 || c.toNat = 12

/-- Python str.strip: remove leading and trailing whitespace. -/
def pyStrip (s : String) : String :=
  String.mk (((s.data.dropWhile isStripChar).reverse.dropWhile isStripChar).reverse)

/-- record.get(title, empty) followed by strip(): an absent key gives
the empty string, a string strips its whitespace, and JSON null raises
AttributeError (None has no strip). -/
def stripTitle : TitleVal → Except String String
  | TitleVal.tnull => Except.error "AttributeError: NoneType object has no attribute strip"
  | TitleVal.tstr s => Except.ok (pyStrip s)

/-- The per-page filter loop of fetch_all_tickets_for_date: skip a
record whose stripped title equals the sentinel, replace an empty title
with No Title, skip a record without id, keep the rest in order.  The
error case is the uncaught AttributeError on a null title. -/
def filterPage : List RawTicket → Except String (List Ticket)
  | [] => Except.ok []
  | r :: rs =>
    match stripTitle (r.title.getD (TitleVal.tstr "")) with
    | Except.error e => Except.error e
    | Except.ok t =>
      if t = excludedTitle then filterPage rs
      else
        match r.id with
        | none => filterPage rs
        | some i =>
          match filterPage rs with
          | Except.error e => Except.error e
          | Except.ok rest =>
            Except.ok ({ id := i, state := r.state_id,
                         title := if t = "" then "No Title" else t,
                         article_count := r.article_count.getD 0 } :: rest)

/-- The value filterPage keeps for one record, when no error occurs. -/
def retainRecord (r : RawTicket) : Option Ticket :=
  match r.title.getD (TitleVal.tstr "") with
  | TitleVal.tnull => none
  | TitleVal.tstr s =>
    let t := pyStrip s
    if t = excludedTitle then none
    else
      match r.id with
      | none => none
      | some i =>
        some { id := i, state := r.state_id,
               title := if t = "" then "No Title" else t,
               article_count := r.article_count.getD 0 }

/-- A record the filter skips for its title (the exclusion sentinel). -/
def isExcludedRec (r : RawTicket) : Bool :=
  match r.title.getD (TitleVal.tstr "") with
  | TitleVal.tnull => false
  | TitleVal.tstr s => pyStrip s == excludedTitle

/-- A record the filter skips for a missing id (title not excluded). -/
def isMissingIdRec (r : RawTicket) : Bool :=
  match r.title.getD (TitleVal.tstr "") with
  | TitleVal.tnull => false
  | TitleVal.tstr s => !(pyStrip s == excludedTitle) && r.id.isNone

/-- The raw ticket list the client obtains from one payload: a bare
list page yields its records, a dict page yields the empty page the
client produces for it. -/
def pageOf : SearchPayload → List RawTicket
  | SearchPayload.list records => records
  | _ => []

/-- The raw ticket lists of a page sequence. -/
def pageLists (ps : List SearchPayload) : List (List RawTicket) := ps.map pageOf

/-- The raw tickets the pagination loop consumes from a page sequence:
pages are taken while full (50 items); the first short or empty page is
the last one taken. -/
def rawConsumed : List (List RawTicket) → List RawTicket
  | [] => []
  | p :: ps => if p.length < 50 then p else p ++ rawConsumed ps

/-- The outcome of fetch_all_tickets_for_date: the returned value (or
the uncaught exception), plus the trace of search requests made, each
recorded as the pair of query string and page number. -/
structure FetchResult where
  result : Except String (List Ticket)
  requests : List (String × Nat)
deriving DecidableEq, Repr

/-- The pagination loop of fetch_all_tickets_for_date, with fuel.  The
loop requests a page, falls back once (resetting to page 1 with
use_range false) when the very first page is empty, stops on an empty
or short page, and otherwise filters the page and continues.  none
means the fuel ran out before the loop finished. -/
def fetchLoop (server : Server) (date_str : String) :
    Nat → Bool → Nat → List Ticket → List (String × Nat) → Option FetchResult
  | 0, _, _, _, _ => none
  | fuel + 1, ur, page, acc, reqs =>
    let page_data := get_tickets_for_date server date_str page ur
    let reqs2 := reqs ++ [(buildQuery date_str ur, page)]
    if page_data = [] then
      if ur && page == 1 then fetchLoop server date_str fuel false 1 acc reqs2
      else some { result := Except.ok acc, requests := reqs2 }
    else
      match filterPage page_data with
      | Except.error e => some { result := Except.error e, requests := reqs2 }
      | Except.ok filtered_page =>
        if page_data.length < 50 then
          some { result := Except.ok (acc ++ filtered_page), requests := reqs2 }
        else fetchLoop server date_str fuel ur (page + 1) (acc ++ filtered_page) reqs2

/-- Fuel sufficient for the pagination loop of one day (proved below):
two requests per available page, plus the fallback, plus slack. -/
def fetchFuel (server : Server) (date_str : String) : Nat :=
  2 * (server (buildQuery date_str true)).length + 4

/-- ZammadClient.fetch_all_tickets_for_date. -/
def fetch_all_tickets_for_date (server : Server) (date_str : String) : Option FetchResult :=
  fetchLoop server date_str (fetchFuel server date_str) true 1 [] []

/-- One validated article object: the renamed from field and the body,
both optional, as in the TicketArticle schema. -/
structure RawArticle where
  from_field : Option String
  body : Option String
deriving DecidableEq, Repr

/-- One kept article: the pair of keys the client builds for it. -/
structure Article where
  from_field : String
  body : String
deriving DecidableEq, Repr

/-- Outcome of the article listing call for one ticket: an exception
(network failure, or schema validation failure), a non-list payload, or
a validated list of articles. -/
inductive ArticleResp where
  | err
  | notList
  | ok (arts : List RawArticle)
deriving DecidableEq, Repr

/-- The remote article endpoint, per ticket id. -/
def ArticleServer : Type := Int → ArticleResp

/-- Python article.from_field or Unknown: None and the empty string are
both falsy, so both give the placeholder. -/
def normFrom : Option String → String
  | none => "Unknown"
  | some s => if s = "" then "Unknown" else s

/-- The filtering loop of get_articles_for_ticket: keep an article only
when its body is truthy (present and nonempty), defaulting the sender. -/
def filterArticles : List RawArticle → List Article
  | [] => []
  | a :: as =>
    match a.body with
    | none => filterArticles as
    | some b =>
      if b = "" then filterArticles as
      else { from_field := normFrom a.from_field, body := b } :: filterArticles as

/-- ZammadClient.get_articles_for_ticket: the whole body sits in a
try/except whose except branch returns the empty list, so every failure
of the request or of the validation is absorbed; a non-list payload is
also turned into an empty list. -/
def get_articles_for_ticket (aserver : ArticleServer) (ticket_id : Int) : List Article :=
  match aserver ticket_id with
  | ArticleResp.err => []
  | ArticleResp.notList => []
  | ArticleResp.ok arts => filterArticles arts

/-- One flattened record of process_day: the base ticket dict plus the
ordered from_i/body_i column pairs taken from its kept articles. -/
structure EnrichedTicket where
  base : Ticket
  articles : List Article
deriving DecidableEq, Repr

/-- ZammadClient.process_day: fetch the day, then enrich each ticket in
order with its articles; an exception from fetch_all propagates, while
article failures were already absorbed per ticket. -/
def process_day (server : Server) (aserver : ArticleServer) (date_str : String) :
    Except String (List EnrichedTicket) :=
  match fetch_all_tickets_for_date server date_str with
  | none => Except.error "pagination loop did not finish"
  | some fr =>
    match fr.result with
    | Except.error e => Except.error e
    | Except.ok tickets =>
      Except.ok (tickets.map (fun t =>
        { base := t, articles := get_articles_for_ticket aserver t.id }))

/-- The error classes a transport attempt can raise, as _make_request
distinguishes them: an HTTP error status, a timeout, a body decode or
validation failure, and the ValueError for a non-GET method. -/
inductive CallErr where
  | httpStatus
  | timeout
  | jsonDecode
  | badMethod
deriving DecidableEq, Repr

/-- The tenacity retry predicate of _make_request: retry only
httpx.HTTPStatusError and httpx.TimeoutException. -/
def isRetryable : CallErr → Bool
  | CallErr.httpStatus => true
  | CallErr.timeout => true
  | _ => false

/-- Observable outcome of one _make_request call: the surfaced result,
the number of transport attempts performed, and the waits (in seconds)
inserted between attempts. -/
structure RetryOutcome (α : Type) where
  result : Except CallErr α
  attempts : Nat
  waits : List Nat
deriving DecidableEq, Repr

/-- The retry wrapper of _make_request, under tenacity with
stop_after_attempt 2, wait_fixed 1, retry_if_exception_type on the two
transient classes, and reraise true (the last exception is surfaced
unchanged, not wrapped).  The transport argument gives the outcome of
each attempt by its 1-based index. -/
def make_request {α : Type} (transport : Nat → Except CallErr α) : RetryOutcome α :=
  match transport 1 with
  | Except.ok a => { result := Except.ok a, attempts := 1, waits := [] }
  | Except.error e =>
    if isRetryable e then
      match transport 2 with
      | Except.ok a => { result := Except.ok a, attempts := 2, waits := [1] }
      | Except.error e2 => { result := Except.error e2, attempts := 2, waits := [1] }
    else { result := Except.error e, attempts := 1, waits := [] }


end Zammad

namespace Driver

open Zammad

/-- A Gregorian calendar date, as the year, month and day numbers the
Python datetime carries. -/
structure Date where
  y : Nat
  m : Nat
  d : Nat
deriving DecidableEq, Repr

/-- Gregorian leap year rule, as the datetime library applies it. -/
def isLeap (y : Nat) : Bool :=
  (y % 4 == 0 && y % 100 != 0) || y % 400 == 0

/-- Days in a month of a year, as datetime validates them. -/
def daysInMonth (y m : Nat) : Nat :=
  if m = 2 then (if isLeap y then 29 else 28)
  else if m = 4 ∨ m = 6 ∨ m = 9 ∨ m = 11 then 30
  else 31

/-- A date datetime accepts: year 1..9999 (MINYEAR..MAXYEAR), month
1..12, day within the month. -/
def validDateB (dt : Date) : Bool :=
  decide (1 ≤ dt.y) && decide (dt.y ≤ 9999) && decide (1 ≤ dt.m) && decide (dt.m ≤ 12)
    && decide (1 ≤ dt.d) && decide (dt.d ≤ daysInMonth dt.y dt.m)

/-- Number of leap years strictly before year y, for y at least 1. -/
def leapsBefore (y : Nat) : Nat :=
  (y - 1) / 4 - (y - 1) / 100 + (y - 1) / 400

/-- Ordinal of the day before January 1 of year y. -/
def yearStart (y : Nat) : Nat :=
  365 * (y - 1) + leapsBefore y

/-- Days of year y strictly before month m (months clamped above 12 to
the full year), tabulated as the calendar module tabulates them. -/
def daysBeforeMonth (y m : Nat) : Nat :=
  let leap : Nat := if isLeap y then 1 else 0
  match m with
  | 0 => 0
  | 1 => 0
  | 2 => 31
  | 3 => 59 + leap
  | 4 => 90 + leap
  | 5 => 120 + leap
  | 6 => 151 + leap
  | 7 => 181 + leap
  | 8 => 212 + leap
  | 9 => 243 + leap
  | 10 => 273 + leap
  | 11 => 304 + leap
  | 12 => 334 + leap
  | _ + 13 => 365 + leap

/-- The proleptic Gregorian ordinal of a date (toordinal of datetime):
day 1 is January 1 of year 1. -/
def dayOrdinal (dt : Date) : Nat :=
  yearStart dt.y + daysBeforeMonth dt.y dt.m + dt.d

/-- Adding timedelta(days = 1) to a datetime: roll the day, month and
year; past MAXYEAR 9999 the addition raises OverflowError. -/
def nextDay (dt : Date) : Except String Date :=
  if dt.d < daysInMonth dt.y dt.m then Except.ok { dt with d := dt.d + 1 }
  else if dt.m < 12 then Except.ok { y := dt.y, m := dt.m + 1, d := 1 }
  else if dt.y < 9999 then Except.ok { y := dt.y + 1, m := 1, d := 1 }
  else Except.error "OverflowError: date value out of range"

/-- Comparison of two datetimes, as datetime orders them: by year,
then month, then day. -/
def dateLe (a b : Date) : Bool :=
  decide (a.y < b.y) ||
    (a.y == b.y && (decide (a.m < b.m) || (a.m == b.m && decide (a.d ≤ b.d))))

/-- Numeric value of a digit character. -/
def dval (c : Char) : Nat := c.toNat - 48

/-- A character the regex class for digits matches: code point 48..57. -/
def isDigitChar (c : Char) : Bool :=
  decide (48 ≤ c.toNat) && decide (c.toNat ≤ 57)

/-- The date validator of TicketQuery on the character list of the
input: the anchored regex for four digits, dash, two digits, dash, two
digits, followed by strptime with the year-month-day format, which
checks year 1..9999, month 1..12 and the day against the month length.
Returns the parsed date exactly when the input is accepted. -/
def parseDateChars : List Char → Option Date
  | [y1, y2, y3, y4, s1, m1, m2, s2, d1, d2] =>
    if isDigitChar y1 && isDigitChar y2 && isDigitChar y3 && isDigitChar y4
        && (s1.toNat == 45) && isDigitChar m1 && isDigitChar m2
        && (s2.toNat == 45) && isDigitChar d1 && isDigitChar d2 then
      let y := ((dval y1 * 10 + dval y2) * 10 + dval y3) * 10 + dval y4
      let m := dval m1 * 10 + dval m2
      let d := dval d1 * 10 + dval d2
      if validDateB { y := y, m := m, d := d } then some { y := y, m := m, d := d }
      else none
    else none
  | _ => none

/-- The date validator of TicketQuery on the input string. -/
def parseDate (s : String) : Option Date := parseDateChars s.data

/-- The digit character of a value below ten. -/
def digitChar (n : Nat) : Char := Char.ofNat (48 + n)

/-- strftime with the year-month-day format: zero-padded four, two and
two digit fields joined by dashes. -/
def formatDate (dt : Date) : String :=
  String.mk [digitChar (dt.y / 1000 % 10), digitChar (dt.y / 100 % 10),
             digitChar (dt.y / 10 % 10), digitChar (dt.y % 10), '-',
             digitChar (dt.m / 10 % 10), digitChar (dt.m % 10), '-',
             digitChar (dt.d / 10 % 10), digitChar (dt.d % 10)]

/-- Python string comparison on character lists: lexicographic by code
point, a proper prefix sorting first. -/
def listLtB : List Char → List Char → Bool
  | _, [] => false
  | [], _ :: _ => true
  | a :: as, b :: bs =>
    decide (a.toNat < b.toNat) || (a.toNat == b.toNat && listLtB as bs)

/-- Python comparison s < t of two strings. -/
def strLtB (s t : String) : Bool := listLtB s.data t.data

/-- The HTTP outcome of the endpoint: a success summary with the total
count, a 400 client-input rejection, or a 500 processing error. -/
inductive ApiOutcome where
  | success (total : Nat)
  | badRequest
  | internalError
deriving DecidableEq, Repr

/-- Observable trace of one get_ticket_data invocation: the outcome,
the date strings handed to process_day in order, and the batches handed
to write_tickets_to_csv in order. -/
structure RangeTrace where
  outcome : ApiOutcome
  visited : List String
  sank : List (List EnrichedTicket)
deriving DecidableEq, Repr

/-- Fuel sufficient for the day loop from cur to fin (proved below). -/
def rangeFuel (cur fin : Date) : Nat :=
  dayOrdinal fin + 1 - dayOrdinal cur

/-- The day loop of get_ticket_data, with fuel: while the current date
is not past the end date, hand the formatted date to process_day,
extend the batch, and step one day forward.  An exception from
process_day, or the OverflowError of the date increment, becomes the
500 outcome and skips the CSV write; when the loop exits normally the
batch goes to the CSV sink once and the success summary is returned.
none means the fuel ran out before the loop finished. -/
def rangeLoop (pd : String → Except String (List EnrichedTicket)) :
    Nat → Date → Date → List EnrichedTicket → List String → Option RangeTrace
  | 0, cur, fin, acc, visited =>
    if dateLe cur fin then none
    else some { outcome := ApiOutcome.success acc.length, visited := visited, sank := [acc] }
  | fuel + 1, cur, fin, acc, visited =>
    if dateLe cur fin then
      match pd (formatDate cur) with
      | Except.error _ =>
        some { outcome := ApiOutcome.internalError,
               visited := visited ++ [formatDate cur], sank := [] }
      | Except.ok recs =>
        match nextDay cur with
        | Except.error _ =>
          some { outcome := ApiOutcome.internalError,
                 visited := visited ++ [formatDate cur], sank := [] }
        | Except.ok c2 =>
          rangeLoop pd fuel c2 fin (acc ++ recs) (visited ++ [formatDate cur])
    else some { outcome := ApiOutcome.success acc.length, visited := visited, sank := [acc] }

/-- The get_ticket_data endpoint: TicketQuery validation (per-field
format and calendar check, then the cross-field range check comparing
the two strings), then the day loop.  A validation failure is the 400
outcome, produced before any network activity. -/
def get_ticket_data (pd : String → Except String (List EnrichedTicket))
    (start_date end_date : String) : Option RangeTrace :=
  match parseDate start_date, parseDate end_date with
  | some a, some b =>
    if strLtB end_date start_date then
      some { outcome := ApiOutcome.badRequest, visited := [], sank := [] }
    else rangeLoop pd (rangeFuel a b) a b [] []
  | _, _ => some { outcome := ApiOutcome.badRequest, visited := [], sank := [] }

/-- The list of calendar days from cur to fin inclusive (empty when cur
is past fin), with the same fuel discipline as the day loop. -/
def dateRangeAux : Nat → Date → Date → List Date
  | 0, _, _ => []
  | fuel + 1, cur, fin =>
    if dateLe cur fin then
      cur :: (match nextDay cur with
              | Except.ok c2 => dateRangeAux fuel c2 fin
              | Except.error _ => [])
    else []

/-- The list of calendar days from a to b inclusive. -/
def dateRange (a b : Date) : List Date := dateRangeAux (rangeFuel a b) a b

end Driver

namespace Zammad

/-- A well-formed raw ticket used in the concrete checks below. -/
def sampleTicket : RawTicket :=
  { id := some 7, state_id := some 1,
    title := some (TitleVal.tstr "Hello"), article_count := some 2 }

/-- A raw ticket whose title key holds JSON null. -/
def nullTitleTicket : RawTicket :=
  { id := some 8, state_id := none, title := some TitleVal.tnull, article_count := none }

/-- A raw ticket carrying exactly the exclusion sentinel as title. -/
def excludedTicket : RawTicket :=
  { id := some 9, state_id := some 4,
    title := some (TitleVal.tstr excludedTitle), article_count := some 1 }

/-- A raw ticket with no title key at all. -/
def missingTitleTicket : RawTicket :=
  { id := some 10, state_id := some 2, title := none, article_count := none }

/-- A server answering every query with one records-dict page: shape a,
reporting one ticket. -/
def serverShapeA : Server := fun _ => [SearchPayload.dictRecords [sampleTicket] 1]

/-- A server answering every query with one bare-list page: shape c. -/
def serverShapeC : Server := fun _ => [SearchPayload.list [sampleTicket]]

/-- A server with no pages at all: every page of every query is empty. -/
def emptyServer : Server := fun _ => []

/-- A server whose single page holds a null-titled record. -/
def serverNullTitle : Server := fun _ => [SearchPayload.list [nullTitleTicket]]

/-- A server whose single bare-list page mixes an excluded-title record,
a missing-title record and an ordinary record. -/
def serverMixed : Server :=
  fun _ => [SearchPayload.list [excludedTicket, missingTitleTicket, sampleTicket]]

/-- An article server that raises for every ticket. -/
def errArticleServer : ArticleServer := fun _ => ArticleResp.err

/-- Article list mixing an absent sender, an empty body, an empty
sender and an absent body. -/
def sampleArticles : List RawArticle :=
  [{ from_field := none, body := some "BodyOne" },
   { from_field := some "alice", body := some "" },
   { from_field := some "", body := some "BodyThree" },
   { from_field := some "bob", body := none }]

/-- An article server answering every ticket with the sample list. -/
def listArticleServer : ArticleServer := fun _ => ArticleResp.ok sampleArticles

end Zammad

namespace Zammad

theorem lem_filterPage_ok (rs : List RawTicket)
    (h : ∀ r ∈ rs, r.title ≠ some TitleVal.tnull) :
    filterPage rs = Except.ok (rs.filterMap retainRecord) := by
  induction rs with
  | nil => rfl
  | cons r rs ih =>
    have hrest : filterPage rs = Except.ok (rs.filterMap retainRecord) :=
      ih (fun x hx => h x (List.mem_cons_of_mem r hx))
    have htrim : pyStrip "" = "" := by decide
    have hne : ("" : String) ≠ excludedTitle := by decide
    cases hrt : r.title with
    | none =>
      cases hid : r.id with
      | none =>
        simp [filterPage, retainRecord, hrt, stripTitle, htrim, hne, hid,
          List.filterMap_cons, hrest]
      | some i =>
        simp [filterPage, retainRecord, hrt, stripTitle, htrim, hne, hid,
          List.filterMap_cons, hrest]
    | some tv =>
      cases tv with
      | tnull => exact absurd hrt (h r (List.mem_cons_self r rs))
      | tstr s =>
        by_cases hex : pyStrip s = excludedTitle
        · simp [filterPage, retainRecord, hrt, stripTitle, hex, List.filterMap_cons, hrest]
        · cases hid : r.id with
          | none =>
            simp [filterPage, retainRecord, hrt, stripTitle, hex, hid,
              List.filterMap_cons, hrest]
          | some i =>
            simp [filterPage, retainRecord, hrt, stripTitle, hex, hid,
              List.filterMap_cons, hrest]

theorem lem_filterPage_error (rs : List RawTicket)
    (h : ∃ r ∈ rs, r.title = some TitleVal.tnull) :
    ∃ e, filterPage rs = Except.error e := by
  induction rs with
  | nil => simp at h
  | cons r rs ih =>
    rcases h with ⟨x, hx, hxt⟩
    rcases List.mem_cons.mp hx with hxr | hxs
    · subst hxr
      exact ⟨"AttributeError: NoneType object has no attribute strip",
        by simp [filterPage, hxt, stripTitle]⟩
    · rcases ih ⟨x, hxs, hxt⟩ with ⟨e, he⟩
      cases hrt : r.title with
      | none =>
        exact ⟨e, by
          have htrim : pyStrip "" = "" := by decide
          have hne : ("" : String) ≠ excludedTitle := by decide
          cases hid : r.id <;>
            simp [filterPage, hrt, stripTitle, htrim, hne, hid, he]⟩
      | some tv =>
        cases tv with
        | tnull =>
          exact ⟨"AttributeError: NoneType object has no attribute strip",
            by simp [filterPage, hrt, stripTitle]⟩
        | tstr s =>
          by_cases hex : pyStrip s = excludedTitle
          · exact ⟨e, by simp [filterPage, hrt, stripTitle, hex, he]⟩
          · cases hid : r.id with
            | none => exact ⟨e, by simp [filterPage, hrt, stripTitle, hex, hid, he]⟩
            | some i => exact ⟨e, by simp [filterPage, hrt, stripTitle, hex, hid, he]⟩

theorem lem_filterPage_error_iff (rs : List RawTicket) :
    (∃ e, filterPage rs = Except.error e) ↔ ∃ r ∈ rs, r.title = some TitleVal.tnull := by
  constructor
  · intro ⟨e, he⟩
    by_contra hno
    push_neg at hno
    rw [lem_filterPage_ok rs hno] at he
    exact Except.noConfusion he
  · exact lem_filterPage_error rs

theorem lem_filterPage_titles (rs : List RawTicket) (l : List Ticket)
    (h : filterPage rs = Except.ok l) : ∀ t ∈ l, t.title ≠ excludedTitle := by
  induction rs generalizing l with
  | nil =>
    simp [filterPage] at h
    subst h; simp
  | cons r rs ih =>
    cases hrt : r.title.getD (TitleVal.tstr "") with
    | tnull => simp [filterPage, hrt, stripTitle] at h
    | tstr s =>
      by_cases hex : pyStrip s = excludedTitle
      · rw [filterPage, hrt] at h
        simp [stripTitle, hex] at h
        exact ih l h
      · cases hid : r.id with
        | none =>
          rw [filterPage, hrt] at h
          simp [stripTitle, hex, hid] at h
          exact ih l h
        | some i =>
          rw [filterPage, hrt] at h
          simp only [stripTitle] at h
          rw [if_neg hex] at h
          cases hrec : filterPage rs with
          | error e => simp [hid, hrec] at h
          | ok rest =>
            simp only [hid, hrec, Except.ok.injEq] at h
            subst h
            intro t ht
            rcases List.mem_cons.mp ht with h1 | h2
            · subst h1
              by_cases hts : pyStrip s = ""
              · simp [hts]; decide
              · simpa [hts] using hex
            · exact ih rest hrec t h2

theorem lem_fetchFuel_succ (server : Server) (d : String) :
    fetchFuel server d = 2 * (server (buildQuery d true)).length + 3 + 1 := by
  unfold fetchFuel; omega

theorem lem_fetch_all_first_page_error (server : Server) (d : String)
    (hne : get_tickets_for_date server d 1 true ≠ []) (e : String)
    (herr : filterPage (get_tickets_for_date server d 1 true) = Except.error e) :
    fetch_all_tickets_for_date server d =
      some { result := Except.error e, requests := [(buildQuery d true, 1)] } := by
  rw [fetch_all_tickets_for_date, lem_fetchFuel_succ]
  simp only [fetchLoop]
  simp [hne, herr]

theorem lem_fetchLoop_titles (server : Server) (d : String) :
    ∀ fuel ur page acc reqs fr, fetchLoop server d fuel ur page acc reqs = some fr →
      ∀ l, fr.result = Except.ok l → (∀ t ∈ acc, t.title ≠ excludedTitle) →
      ∀ t ∈ l, t.title ≠ excludedTitle := by
  intro fuel
  induction fuel with
  | zero =>
    intro ur page acc reqs fr h
    exact absurd h (by simp [fetchLoop])
  | succ fuel ih =>
    intro ur page acc reqs fr h l hres hacc
    simp only [fetchLoop] at h
    by_cases hpd : get_tickets_for_date server d page ur = []
    · simp only [hpd, if_pos rfl] at h
      by_cases hcond : (ur && page == 1) = true
      · rw [if_pos hcond] at h
        exact ih false 1 acc _ fr h l hres hacc
      · rw [if_neg hcond] at h
        obtain rfl := Option.some.inj h
        simp only at hres
        obtain rfl := Except.ok.inj hres
        exact hacc
    · rw [if_neg hpd] at h
      cases hfp : filterPage (get_tickets_for_date server d page ur) with
      | error e =>
        simp only [hfp] at h
        obtain rfl := Option.some.inj h
        simp only at hres
        exact Except.noConfusion hres
      | ok fp =>
        have hfpt := lem_filterPage_titles _ _ hfp
        simp only [hfp] at h
        by_cases hlen : (get_tickets_for_date server d page ur).length < 50
        · rw [if_pos hlen] at h
          obtain rfl := Option.some.inj h
          simp only at hres
          obtain rfl := Except.ok.inj hres
          intro t ht
          rcases List.mem_append.mp ht with h1 | h2
          · exact hacc t h1
          · exact hfpt t h2
        · rw [if_neg hlen] at h
          refine ih ur (page + 1) (acc ++ fp) _ fr h l hres ?_
          intro t ht
          rcases List.mem_append.mp ht with h1 | h2
          · exact hacc t h1
          · exact hfpt t h2

end Zammad

namespace Zammad

/-- C1.  Amended shape handling of the pager: only a bare-list payload
(shape c) is extracted as the ticket list of the page; a records dict
(shape a) and an assets dict (shape b) are both turned into an empty
page, whatever tickets they carry. -/
theorem C1_shape_detection (server : Server) (d : String) (page : Nat) (ur : Bool) :
    (∀ records, pageAt server (buildQuery d ur) page = SearchPayload.list records →
      get_tickets_for_date server d page ur = records) ∧
    (∀ records tc, pageAt server (buildQuery d ur) page = SearchPayload.dictRecords records tc →
      get_tickets_for_date server d page ur = []) ∧
    (∀ ids ats tc, pageAt server (buildQuery d ur) page = SearchPayload.dictAssets ids ats tc →
      get_tickets_for_date server d page ur = []) := by
  refine ⟨?_, ?_, ?_⟩
  · intro records h
    simp [get_tickets_for_date, h, modelValidateTicketSearch]
  · intro records tc h
    simp [get_tickets_for_date, h]
  · intro ids ats tc h
    simp [get_tickets_for_date, h]

/-- C1, counterexample to the claim as stated: a records-dict page
(shape a) that contains a ticket nevertheless yields a silently empty
page, and the whole fetch retains nothing. -/
theorem C1_counterexample :
    pageAt serverShapeA (buildQuery "2025-10-09" true) 1 =
        SearchPayload.dictRecords [sampleTicket] 1 ∧
    ([sampleTicket] : List RawTicket) ≠ [] ∧
    get_tickets_for_date serverShapeA "2025-10-09" 1 true = [] ∧
    fetch_all_tickets_for_date serverShapeA "2025-10-09" =
      some { result := Except.ok [],
             requests := [("created_at:2025-10-09", 1), ("created_at:2025-10-09", 1)] } := by
  refine ⟨rfl, by decide, rfl, by decide⟩

/-- C1, witness: the amended theorem applied to a concrete bare-list
page and to a concrete records-dict page. -/
theorem C1_witness :
    get_tickets_for_date serverShapeC "2025-10-09" 1 true = [sampleTicket] ∧
    get_tickets_for_date serverShapeA "2025-10-09" 1 true = [] := by
  constructor
  · exact (C1_shape_detection serverShapeC "2025-10-09" 1 true).1 [sampleTicket] rfl
  · exact (C1_shape_detection serverShapeA "2025-10-09" 1 true).2.1 [sampleTicket] 1 rfl

/-- C3.  Amended fallback behaviour: when the first page of a day comes
back empty, the loop performs exactly one fallback attempt before
concluding the day is empty, and returns normally (a warning, not an
error); but the fallback request carries exactly the same query string
as the original, because the use-range flag is ignored when the query
is built, so the exact-day constraint is not dropped. -/
theorem lem_fallback_two_steps (server : Server) (d : String)
    (h : get_tickets_for_date server d 1 true = []) (fuel : Nat) :
    fetchLoop server d (fuel + 1 + 1) true 1 [] [] =
      some { result := Except.ok [],
             requests := [(buildQuery d true, 1), (buildQuery d false, 1)] } := by
  have h2 : get_tickets_for_date server d 1 false = [] := h
  rw [fetchLoop.eq_2]
  simp only [h, List.nil_append]
  rw [if_pos trivial, if_pos (by decide : (true && 1 == 1) = true)]
  rw [fetchLoop.eq_2]
  simp only [h2]
  rw [if_pos trivial, if_neg (by decide : ¬((false && 1 == 1) = true))]
  simp

theorem C3_fallback (server : Server) (d : String)
    (h : get_tickets_for_date server d 1 true = []) :
    fetch_all_tickets_for_date server d =
      some { result := Except.ok [],
             requests := [(buildQuery d true, 1), (buildQuery d false, 1)] } ∧
    buildQuery d true = buildQuery d false := by
  refine ⟨?_, rfl⟩
  have hs : fetchFuel server d =
      2 * (server (buildQuery d true)).length + 2 + 1 + 1 := by
    unfold fetchFuel; omega
  rw [fetch_all_tickets_for_date, hs]
  exact lem_fallback_two_steps server d h (2 * (server (buildQuery d true)).length + 2)

/-- C3, counterexample to the claim as stated: for a server with no
data at all, the fallback request records exactly the same query string
as the first request, instead of one differing by a dropped exact-day
constraint. -/
theorem C3_counterexample :
    fetch_all_tickets_for_date emptyServer "2025-10-09" =
      some { result := Except.ok [],
             requests := [("created_at:2025-10-09", 1), ("created_at:2025-10-09", 1)] } ∧
    buildQuery "2025-10-09" true = buildQuery "2025-10-09" false := by
  exact ⟨by decide, rfl⟩

/-- C3, witness: the amended theorem applied to the empty server. -/
theorem C3_witness :
    fetch_all_tickets_for_date emptyServer "2025-10-10" =
      some { result := Except.ok [],
             requests := [(buildQuery "2025-10-10" true, 1), (buildQuery "2025-10-10" false, 1)] } ∧
    buildQuery "2025-10-10" true = buildQuery "2025-10-10" false :=
  C3_fallback emptyServer "2025-10-10" rfl

/-- C9.  The Pydantic validation step of get_tickets_for_date always
fails on the list payload (TicketSearchResponse is a plain BaseModel,
so validating a list raises), and the fallback branch returns the raw
page list unchanged: schema validation never drops or rewrites a
record. -/
theorem C9_validation_always_fails (server : Server) (d : String) (page : Nat) (ur : Bool)
    (records : List RawTicket)
    (h : pageAt server (buildQuery d ur) page = SearchPayload.list records) :
    (∃ e, modelValidateTicketSearch records = Except.error e) ∧
    get_tickets_for_date server d page ur = records := by
  refine ⟨⟨_, rfl⟩, ?_⟩
  simp [get_tickets_for_date, h, modelValidateTicketSearch]

/-- C9, witness: the theorem applied to a concrete bare-list page. -/
theorem C9_witness :
    (∃ e, modelValidateTicketSearch [sampleTicket] = Except.error e) ∧
    get_tickets_for_date serverShapeC "2025-10-09" 1 true = [sampleTicket] :=
  C9_validation_always_fails serverShapeC "2025-10-09" 1 true [sampleTicket] rfl

/-- C10.  A null title aborts the day: the page filter raises exactly
when some record in the page carries JSON null under the title key, and
when the first page contains such a record the whole of
fetch_all_tickets_for_date surfaces the AttributeError instead of
substituting the placeholder; with no null titles the filter is total. -/
theorem C10_null_title_aborts :
    (∀ rs : List RawTicket,
      (∃ e, filterPage rs = Except.error e) ↔ ∃ r ∈ rs, r.title = some TitleVal.tnull) ∧
    (∀ (server : Server) (d : String),
      get_tickets_for_date server d 1 true ≠ [] →
      (∃ r ∈ get_tickets_for_date server d 1 true, r.title = some TitleVal.tnull) →
      ∃ e, fetch_all_tickets_for_date server d =
        some { result := Except.error e, requests := [(buildQuery d true, 1)] }) ∧
    (∀ rs : List RawTicket, (∀ r ∈ rs, r.title ≠ some TitleVal.tnull) →
      ∃ l, filterPage rs = Except.ok l) := by
  refine ⟨lem_filterPage_error_iff, ?_, ?_⟩
  · intro server d hne hnull
    rcases (lem_filterPage_error_iff _).mpr hnull with ⟨e, he⟩
    exact ⟨e, lem_fetch_all_first_page_error server d hne e he⟩
  · intro rs h
    exact ⟨rs.filterMap retainRecord, lem_filterPage_ok rs h⟩

/-- C10, witness: a concrete one-record page with a null title makes
the filter raise and the day abort; a concrete clean page passes. -/
theorem C10_witness :
    (∃ e, filterPage [nullTitleTicket] = Except.error e) ∧
    (∃ e, fetch_all_tickets_for_date serverNullTitle "2025-10-09" =
      some { result := Except.error e, requests := [(buildQuery "2025-10-09" true, 1)] }) ∧
    (∃ l, filterPage [sampleTicket] = Except.ok l) := by
  refine ⟨?_, ?_, ?_⟩
  · exact (C10_null_title_aborts.1 [nullTitleTicket]).mpr
      ⟨nullTitleTicket, by decide, rfl⟩
  · exact C10_null_title_aborts.2.1 serverNullTitle "2025-10-09" (by decide)
      ⟨nullTitleTicket, by decide, rfl⟩
  · exact C10_null_title_aborts.2.2 [sampleTicket] (by decide)

/-- C6.  The retry policy of _make_request: at most two transport
attempts; every inter-attempt wait is exactly one second; a second
attempt happens exactly after a retryable first failure (HTTP status
error or timeout); a non-retryable error (decode failure, unsupported
method) is surfaced unchanged with no retry; and when the final attempt
fails its error is surfaced unchanged. -/
theorem C6_retry_policy {α : Type} (transport : Nat → Except CallErr α) :
    (make_request transport).attempts ≤ 2 ∧
    (∀ w ∈ (make_request transport).waits, w = 1) ∧
    ((make_request transport).attempts = 2 ↔
      ∃ e, transport 1 = Except.error e ∧ isRetryable e = true) ∧
    ((make_request transport).attempts = 2 → (make_request transport).waits = [1]) ∧
    (∀ e, transport 1 = Except.error e → isRetryable e = false →
      (make_request transport).result = Except.error e ∧ (make_request transport).attempts = 1) ∧
    (∀ e e2, transport 1 = Except.error e → isRetryable e = true →
      transport 2 = Except.error e2 → (make_request transport).result = Except.error e2) ∧
    (∀ a, transport 1 = Except.ok a →
      (make_request transport).result = Except.ok a ∧ (make_request transport).attempts = 1) := by
  cases h1 : transport 1 with
  | ok a =>
    have hmk : make_request transport =
        { result := Except.ok a, attempts := 1, waits := [] } := by
      simp [make_request, h1]
    refine ⟨by simp [hmk], by simp [hmk], ?_, ?_, ?_, ?_, ?_⟩
    · constructor
      · intro h12; rw [hmk] at h12; simp at h12
      · rintro ⟨x, hx, hrx⟩; exact Except.noConfusion hx
    · intro h12; rw [hmk] at h12; simp at h12
    · intro x hx; exact Except.noConfusion hx
    · intro x e2 hx; exact Except.noConfusion hx
    · intro a2 ha
      obtain rfl := Except.ok.inj ha
      rw [hmk]
      exact ⟨rfl, rfl⟩
  | error e =>
    cases hre : isRetryable e with
    | false =>
      have hmk : make_request transport =
          { result := Except.error e, attempts := 1, waits := [] } := by
        simp [make_request, h1, hre]
      refine ⟨by simp [hmk], by simp [hmk], ?_, ?_, ?_, ?_, ?_⟩
      · constructor
        · intro h12; rw [hmk] at h12; simp at h12
        · rintro ⟨x, hx, hrx⟩
          obtain rfl := Except.error.inj hx
          rw [hre] at hrx
          exact Bool.noConfusion hrx
      · intro h12; rw [hmk] at h12; simp at h12
      · intro x hx hrx
        obtain rfl := Except.error.inj hx
        rw [hmk]
        exact ⟨rfl, rfl⟩
      · intro x e2 hx hrx
        obtain rfl := Except.error.inj hx
        rw [hre] at hrx
        exact absurd hrx (by decide)
      · intro a ha; exact Except.noConfusion ha
    | true =>
      cases h2 : transport 2 with
      | ok a =>
        have hmk : make_request transport =
            { result := Except.ok a, attempts := 2, waits := [1] } := by
          simp [make_request, h1, hre, h2]
        refine ⟨by simp [hmk], by simp [hmk], ?_, ?_, ?_, ?_, ?_⟩
        · exact ⟨fun _ => ⟨e, rfl, hre⟩, fun _ => by rw [hmk]⟩
        · intro _; rw [hmk]
        · intro x hx hrx
          obtain rfl := Except.error.inj hx
          rw [hre] at hrx
          exact absurd hrx (by decide)
        · intro x e2 hx hrx h2x
          exact Except.noConfusion h2x
        · intro a2 ha; exact Except.noConfusion ha
      | error e2 =>
        have hmk : make_request transport =
            { result := Except.error e2, attempts := 2, waits := [1] } := by
          simp [make_request, h1, hre, h2]
        refine ⟨by simp [hmk], by simp [hmk], ?_, ?_, ?_, ?_, ?_⟩
        · exact ⟨fun _ => ⟨e, rfl, hre⟩, fun _ => by rw [hmk]⟩
        · intro _; rw [hmk]
        · intro x hx hrx
          obtain rfl := Except.error.inj hx
          rw [hre] at hrx
          exact absurd hrx (by decide)
        · intro x ex2 hx hrx h2x
          obtain rfl := Except.error.inj h2x
          rw [hmk]
        · intro a ha; exact Except.noConfusion ha

/-- C6, witness: a transport failing with a timeout once and then
succeeding is retried exactly once with a one-second wait; a transport
failing with a decode error is not retried. -/
theorem C6_witness :
    (make_request (fun n => if n = 1 then Except.error CallErr.timeout
        else Except.ok 42)).attempts ≤ 2 ∧
    ((make_request (fun _ => (Except.error CallErr.jsonDecode : Except CallErr Nat))).result
        = Except.error CallErr.jsonDecode ∧
      (make_request (fun _ => (Except.error CallErr.jsonDecode : Except CallErr Nat))).attempts = 1) := by
  constructor
  · exact (C6_retry_policy (fun n => if n = 1 then Except.error CallErr.timeout
      else Except.ok 42)).1
  · exact (C6_retry_policy (fun _ => (Except.error CallErr.jsonDecode : Except CallErr Nat))).2.2.2.2.1
      CallErr.jsonDecode rfl rfl

theorem lem_filterArticles_body (arts : List RawArticle) :
    ∀ a ∈ filterArticles arts, a.body ≠ "" := by
  induction arts with
  | nil => simp [filterArticles]
  | cons x xs ih =>
    cases hb : x.body with
    | none => simpa [filterArticles, hb] using ih
    | some b =>
      by_cases hbe : b = ""
      · simpa [filterArticles, hb, hbe] using ih
      · intro a ha
        rw [filterArticles] at ha
        simp only [hb, if_neg hbe] at ha
        rcases List.mem_cons.mp ha with rfl | htail
        · simpa using hbe
        · exact ih a htail

/-- C4.  The exclusion filter: no ticket whose stripped title is the
exclusion sentinel survives fetch_all_tickets_for_date or process_day;
process_day enriches the filtered list one to one (the filter runs
exactly once, before enrichment, and nothing else drops a ticket); and
a record with an empty or missing title but a present id is emitted
with the placeholder title, never dropped for that reason. -/
theorem C4_exclusion_filter :
    (∀ (server : Server) (d : String) fr l,
      fetch_all_tickets_for_date server d = some fr → fr.result = Except.ok l →
      ∀ t ∈ l, t.title ≠ excludedTitle) ∧
    (∀ (server : Server) (aserver : ArticleServer) (d : String) es,
      process_day server aserver d = Except.ok es →
      (∀ en ∈ es, en.base.title ≠ excludedTitle) ∧
      ∃ fr l, fetch_all_tickets_for_date server d = some fr ∧ fr.result = Except.ok l ∧
        es = l.map (fun t => { base := t, articles := get_articles_for_ticket aserver t.id }) ∧
        es.length = l.length) ∧
    (∀ (r : RawTicket) (i : Int) (rs : List RawTicket), r.id = some i →
      (r.title = none ∨ ∃ s, r.title = some (TitleVal.tstr s) ∧ pyStrip s = "") →
      filterPage (r :: rs) = Except.map
        (fun l => ({ id := i, state := r.state_id, title := "No Title",
                     article_count := r.article_count.getD 0 } : Ticket) :: l) (filterPage rs)) := by
  have h1 : ∀ (server : Server) (d : String) fr l,
      fetch_all_tickets_for_date server d = some fr → fr.result = Except.ok l →
      ∀ t ∈ l, t.title ≠ excludedTitle := by
    intro server d fr l hf hres
    exact lem_fetchLoop_titles server d (fetchFuel server d) true 1 [] [] fr hf l hres
      (by simp)
  refine ⟨h1, ?_, ?_⟩
  · intro server aserver d es hpd
    cases hfa : fetch_all_tickets_for_date server d with
    | none => rw [process_day, hfa] at hpd; exact Except.noConfusion hpd
    | some fr =>
      cases hres : fr.result with
      | error e =>
        rw [process_day, hfa] at hpd
        simp only [hres] at hpd
        exact Except.noConfusion hpd
      | ok l =>
        rw [process_day, hfa] at hpd
        simp only [hres, Except.ok.injEq] at hpd
        subst hpd
        refine ⟨?_, fr, l, rfl, hres, rfl, by simp⟩
        intro en hen
        rcases List.mem_map.mp hen with ⟨t, ht, rfl⟩
        exact h1 server d fr l hfa hres t ht
  · intro r i rs hid htitle
    have hne : ("" : String) ≠ excludedTitle := by decide
    have hps0 : pyStrip "" = "" := by decide
    rcases htitle with hrt | ⟨s, hrt, hps⟩ <;>
    · cases hrec : filterPage rs with
      | error e =>
        simp [filterPage, stripTitle, hrt, hid, hrec, hne, hps0, Except.map, *]
      | ok rest =>
        simp [filterPage, stripTitle, hrt, hid, hrec, hne, hps0, Except.map, *]

/-- C4, witness: the mixed concrete page (sentinel title, missing
title, ordinary title) keeps exactly the non-sentinel records, the
missing-title one under the placeholder; and the placeholder branch of
the filter applied to a concrete missing-title record. -/
theorem C4_witness :
    (∀ t ∈ [({ id := 10, state := some 2, title := "No Title", article_count := 0 } : Ticket),
            { id := 7, state := some 1, title := "Hello", article_count := 2 }],
      t.title ≠ excludedTitle) ∧
    filterPage [missingTitleTicket] = Except.map
      (fun l => ({ id := 10, state := some 2, title := "No Title",
                   article_count := 0 } : Ticket) :: l) (filterPage []) := by
  constructor
  · exact C4_exclusion_filter.1 serverMixed "2025-10-09"
      { result := Except.ok [{ id := 10, state := some 2, title := "No Title", article_count := 0 },
                            { id := 7, state := some 1, title := "Hello", article_count := 2 }],
        requests := [("created_at:2025-10-09", 1)] }
      [{ id := 10, state := some 2, title := "No Title", article_count := 0 },
       { id := 7, state := some 1, title := "Hello", article_count := 2 }]
      (by decide) rfl
  · exact C4_exclusion_filter.2.2 missingTitleTicket 10 [] rfl (Or.inl rfl)

/-- C5.  Article failures are absorbed: an article request that raises
yields the empty article list instead of propagating; every returned
article has a nonempty body; an article with an absent sender and a
nonempty body is kept with the placeholder sender; and process_day
still emits one flattened record per filtered ticket, a ticket whose
article call raised appearing with zero article columns. -/
theorem C5_article_errors_absorbed :
    (∀ (aserver : ArticleServer) (tid : Int), aserver tid = ArticleResp.err →
      get_articles_for_ticket aserver tid = []) ∧
    (∀ (aserver : ArticleServer) (tid : Int) a,
      a ∈ get_articles_for_ticket aserver tid → a.body ≠ "") ∧
    (∀ (arts : List RawArticle) (a : RawArticle) (b : String),
      a ∈ arts → a.from_field = none → a.body = some b → b ≠ "" →
      ({ from_field := "Unknown", body := b } : Article) ∈ filterArticles arts) ∧
    (∀ (server : Server) (aserver : ArticleServer) (d : String) fr ts,
      fetch_all_tickets_for_date server d = some fr → fr.result = Except.ok ts →
      process_day server aserver d = Except.ok (ts.map fun t =>
        { base := t, articles := get_articles_for_ticket aserver t.id }) ∧
      ∀ t ∈ ts, aserver t.id = ArticleResp.err →
        ({ base := t, articles := [] } : EnrichedTicket) ∈ ts.map (fun t =>
          ({ base := t, articles := get_articles_for_ticket aserver t.id } : EnrichedTicket))) := by
  refine ⟨?_, ?_, ?_, ?_⟩
  · intro aserver tid h
    simp [get_articles_for_ticket, h]
  · intro aserver tid a ha
    cases hsv : aserver tid with
    | err => rw [get_articles_for_ticket, hsv] at ha; simp at ha
    | notList => rw [get_articles_for_ticket, hsv] at ha; simp at ha
    | ok arts =>
      rw [get_articles_for_ticket, hsv] at ha
      exact lem_filterArticles_body arts a ha
  · intro arts
    induction arts with
    | nil => intro a b h; simp at h
    | cons x xs ih =>
      intro a b hmem hff hb hbe
      rcases List.mem_cons.mp hmem with rfl | hxs
      · rw [filterArticles]
        simp only [hb, if_neg hbe, hff]
        have hnf : normFrom none = "Unknown" := rfl
        rw [hnf]
        exact List.mem_cons_self _ _
      · have htail := ih a b hxs hff hb hbe
        rw [filterArticles]
        cases hxb : x.body with
        | none => exact htail
        | some xb =>
          by_cases hxbe : xb = ""
          · simpa [hxb, hxbe] using htail
          · simp only [hxb, if_neg hxbe]
            exact List.mem_cons_of_mem _ htail
  · intro server aserver d fr ts hfa hres
    constructor
    · rw [process_day, hfa]
      simp only [hres]
    · intro t ht herr
      have hempty : get_articles_for_ticket aserver t.id = [] := by
        simp [get_articles_for_ticket, herr]
      exact List.mem_map.mpr ⟨t, ht, by rw [hempty]⟩

/-- C5, witness: the concrete failing article server yields the empty
list; the concrete mixed article list keeps the absent-sender nonempty
body article under the placeholder; and the concrete one-ticket day
with a failing article server emits the ticket with no articles. -/
theorem C5_witness :
    get_articles_for_ticket errArticleServer 5 = [] ∧
    ({ from_field := "Unknown", body := "BodyOne" } : Article) ∈ filterArticles sampleArticles ∧
    process_day serverShapeC errArticleServer "2025-10-09" =
      Except.ok ([{ id := 7, state := some 1, title := "Hello", article_count := 2 }].map fun t =>
        { base := t, articles := get_articles_for_ticket errArticleServer t.id }) := by
  refine ⟨?_, ?_, ?_⟩
  · exact C5_article_errors_absorbed.1 errArticleServer 5 rfl
  · exact C5_article_errors_absorbed.2.2.1 sampleArticles
      { from_field := none, body := some "BodyOne" } "BodyOne" (by decide) rfl rfl (by decide)
  · exact (C5_article_errors_absorbed.2.2.2 serverShapeC errArticleServer "2025-10-09"
      { result := Except.ok [{ id := 7, state := some 1, title := "Hello", article_count := 2 }],
        requests := [("created_at:2025-10-09", 1)] }
      [{ id := 7, state := some 1, title := "Hello", article_count := 2 }]
      (by decide) rfl).1

theorem lem_buildQuery_ur (d : String) (ur : Bool) : buildQuery d ur = buildQuery d true :=
  rfl

theorem lem_pageAt_oob (server : Server) (d : String) (page : Nat)
    (h : (server (buildQuery d true)).length ≤ page - 1) :
    pageAt server (buildQuery d true) page = SearchPayload.list [] := by
  rw [pageAt]
  simp [List.getD, List.getElem?_eq_none h]

theorem lem_pageAt_mem (server : Server) (d : String) (page : Nat)
    (h : page - 1 < (server (buildQuery d true)).length) :
    pageAt server (buildQuery d true) page =
      (server (buildQuery d true))[page - 1] := by
  rw [pageAt]
  simp [List.getD, List.getElem?_eq_getElem h]

theorem lem_get_tickets_eq_pageOf (server : Server) (d : String) (page : Nat) (ur : Bool) :
    get_tickets_for_date server d page ur =
      pageOf (pageAt server (buildQuery d true) page) := by
  unfold get_tickets_for_date
  rw [lem_buildQuery_ur d ur]
  cases pageAt server (buildQuery d true) page <;>
    simp [pageOf, modelValidateTicketSearch]

theorem lem_get_tickets_nonempty_bound (server : Server) (d : String) (page : Nat) (ur : Bool)
    (h : get_tickets_for_date server d page ur ≠ []) :
    page - 1 < (server (buildQuery d true)).length := by
  by_contra hge
  push_neg at hge
  refine h ?_
  rw [lem_get_tickets_eq_pageOf, lem_pageAt_oob server d page hge]
  simp [pageOf]

theorem lem_consumed_nil (server : Server) (d : String) (page : Nat) (ur : Bool)
    (hpd : get_tickets_for_date server d page ur = []) :
    rawConsumed (pageLists ((server (buildQuery d true)).drop (page - 1))) = [] := by
  by_cases hlt : page - 1 < (server (buildQuery d true)).length
  · rw [List.drop_eq_getElem_cons hlt]
    have hpv : pageOf ((server (buildQuery d true))[page - 1]) = [] := by
      rw [← lem_pageAt_mem server d page hlt, ← lem_get_tickets_eq_pageOf server d page ur, hpd]
    simp only [pageLists, List.map_cons]
    rw [rawConsumed, hpv]
    simp
  · push_neg at hlt
    rw [List.drop_eq_nil_of_le hlt]
    simp [pageLists, rawConsumed]

theorem lem_rawConsumed_mem (ps : List SearchPayload) (r : RawTicket)
    (h : r ∈ rawConsumed (pageLists ps)) : ∃ p ∈ ps, r ∈ pageOf p := by
  induction ps with
  | nil => simp [pageLists, rawConsumed] at h
  | cons p ps ih =>
    simp only [pageLists, List.map_cons] at h
    rw [rawConsumed] at h
    by_cases hl : (pageOf p).length < 50
    · rw [if_pos hl] at h
      exact ⟨p, List.mem_cons_self p ps, h⟩
    · rw [if_neg hl] at h
      rcases List.mem_append.mp h with h1 | h2
      · exact ⟨p, List.mem_cons_self p ps, h1⟩
      · rcases ih h2 with ⟨p2, hp2, hr2⟩
        exact ⟨p2, List.mem_cons_of_mem p hp2, hr2⟩

theorem lem_retain_count (rs : List RawTicket)
    (h : ∀ r ∈ rs, r.title ≠ some TitleVal.tnull) :
    (rs.filterMap retainRecord).length + rs.countP isExcludedRec + rs.countP isMissingIdRec
      = rs.length := by
  induction rs with
  | nil => simp
  | cons r rs ih =>
    have hr := h r (List.mem_cons_self r rs)
    have ih2 := ih (fun x hx => h x (List.mem_cons_of_mem r hx))
    rw [List.filterMap_cons, List.countP_cons, List.countP_cons, List.length_cons]
    cases hrt : r.title.getD (TitleVal.tstr "") with
    | tnull =>
      cases ht : r.title with
      | none => rw [ht] at hrt; simp at hrt
      | some tv =>
        rw [ht] at hrt
        simp only [Option.getD_some] at hrt
        subst hrt
        exact absurd ht hr
    | tstr s =>
      by_cases hex : pyStrip s = excludedTitle
      · simp only [retainRecord, isExcludedRec, isMissingIdRec, hrt, hex, if_pos rfl,
          beq_self_eq_true]
        simp
        omega
      · cases hid : r.id with
        | none =>
          simp only [retainRecord, isExcludedRec, isMissingIdRec, hrt, hid]
          rw [if_neg hex]
          simp [hex, ih2]
          omega
        | some i =>
          simp only [retainRecord, isExcludedRec, isMissingIdRec, hrt, hid]
          rw [if_neg hex]
          simp [hex, ih2]
          omega

theorem lem_fetchLoop_spec (server : Server) (d : String)
    (hpages : ∀ p ∈ server (buildQuery d true), ∃ rs, p = SearchPayload.list rs ∧
      ∀ r ∈ rs, r.title ≠ some TitleVal.tnull) :
    ∀ fuel ur page acc reqs, 1 ≤ page →
      (cond ur 1 0) * ((server (buildQuery d true)).length + 2)
        + ((server (buildQuery d true)).length + 2 - page) + 1 ≤ fuel →
      ∃ reqs2, fetchLoop server d fuel ur page acc reqs =
        some { result := Except.ok (acc ++ List.filterMap retainRecord (rawConsumed
                 (pageLists (List.drop (page - 1) (server (buildQuery d true)))))),
               requests := reqs2 } := by
  intro fuel
  induction fuel with
  | zero =>
    intro ur page acc reqs hpage hfuel
    cases ur <;> simp at hfuel
  | succ fuel ih =>
    intro ur page acc reqs hpage hfuel
    rw [fetchLoop.eq_2]
    by_cases hpd : get_tickets_for_date server d page ur = []
    · have hR : rawConsumed (pageLists ((server (buildQuery d true)).drop (page - 1))) = [] :=
        lem_consumed_nil server d page ur hpd
      simp only [hpd]
      rw [if_pos trivial]
      by_cases hcond : (ur && page == 1) = true
      · rw [if_pos hcond]
        have hcond2 : ur = true ∧ page = 1 := by
          simpa [Bool.and_eq_true] using hcond
        obtain ⟨hur, hp1⟩ := hcond2
        subst hur
        subst hp1
        have hfuel2 : (cond false 1 0) * ((server (buildQuery d true)).length + 2)
            + ((server (buildQuery d true)).length + 2 - 1) + 1 ≤ fuel := by
          simp only [Bool.cond_true, Bool.cond_false] at hfuel ⊢
          omega
        exact ih false 1 acc (reqs ++ [(buildQuery d true, 1)]) (le_refl 1) hfuel2
      · rw [if_neg hcond]
        refine ⟨reqs ++ [(buildQuery d ur, page)], ?_⟩
        rw [hR]
        simp
    · have hlt : page - 1 < (server (buildQuery d true)).length :=
        lem_get_tickets_nonempty_bound server d page ur hpd
      obtain ⟨rs, hrs_eq, hrs_null⟩ := hpages _ (List.getElem_mem hlt)
      have hpd_eq : get_tickets_for_date server d page ur = rs := by
        rw [lem_get_tickets_eq_pageOf, lem_pageAt_mem server d page hlt, hrs_eq]
        simp [pageOf]
      have hrs_ne : rs ≠ [] := by rw [← hpd_eq]; exact hpd
      have hfp : filterPage rs = Except.ok (rs.filterMap retainRecord) :=
        lem_filterPage_ok rs hrs_null
      have hdrop : (server (buildQuery d true)).drop (page - 1) =
          SearchPayload.list rs :: (server (buildQuery d true)).drop page := by
        rw [List.drop_eq_getElem_cons hlt, hrs_eq,
          show page - 1 + 1 = page from by omega]
      simp only [hpd_eq]
      rw [if_neg hrs_ne]
      simp only [hfp]
      by_cases hlen : rs.length < 50
      · rw [if_pos hlen]
        refine ⟨reqs ++ [(buildQuery d ur, page)], ?_⟩
        rw [hdrop]
        simp only [pageLists, List.map_cons]
        rw [rawConsumed]
        simp only [pageOf]
        rw [if_pos hlen]
      · rw [if_neg hlen]
        have hpageM : page ≤ (server (buildQuery d true)).length := by omega
        have hfuel2 : (cond ur 1 0) * ((server (buildQuery d true)).length + 2)
            + ((server (buildQuery d true)).length + 2 - (page + 1)) + 1 ≤ fuel := by
          cases ur <;> simp only [Bool.cond_true, Bool.cond_false] at hfuel ⊢ <;> omega
        obtain ⟨reqs2, hrec⟩ := ih ur (page + 1) (acc ++ rs.filterMap retainRecord)
          (reqs ++ [(buildQuery d ur, page)]) (by omega) hfuel2
        refine ⟨reqs2, ?_⟩
        rw [hrec, hdrop]
        simp only [pageLists, List.map_cons]
        rw [rawConsumed]
        simp only [pageOf]
        rw [if_neg hlen]
        simp [List.filterMap_append, List.append_assoc, Nat.add_sub_cancel, pageLists]

/-- C2.  Amended pagination law: when every page of the day query is a
bare list (shape c) with no null titles, the pagination loop finishes
within its fuel, stopping at the first empty or short page, and
retains exactly the consumed raw tickets minus the excluded-title ones
minus the missing-id ones.  Shapes a and b do not satisfy this law:
their pages are turned into empty pages, so their reported totals are
never honoured (see the counterexample). -/
theorem C2_pagination_count (server : Server) (d : String)
    (hpages : ∀ p ∈ server (buildQuery d true), ∃ rs, p = SearchPayload.list rs ∧
      ∀ r ∈ rs, r.title ≠ some TitleVal.tnull) :
    ∃ fr, fetch_all_tickets_for_date server d = some fr ∧
      fr.result = Except.ok (List.filterMap retainRecord
        (rawConsumed (pageLists (server (buildQuery d true))))) ∧
      (List.filterMap retainRecord
          (rawConsumed (pageLists (server (buildQuery d true))))).length
        + List.countP isExcludedRec (rawConsumed (pageLists (server (buildQuery d true))))
        + List.countP isMissingIdRec (rawConsumed (pageLists (server (buildQuery d true))))
        = (rawConsumed (pageLists (server (buildQuery d true)))).length := by
  have hfuel : (cond true 1 0) * ((server (buildQuery d true)).length + 2)
      + ((server (buildQuery d true)).length + 2 - 1) + 1 ≤ fetchFuel server d := by
    simp only [Bool.cond_true]
    unfold fetchFuel
    omega
  obtain ⟨reqs2, hloop⟩ := lem_fetchLoop_spec server d hpages (fetchFuel server d)
    true 1 [] [] (le_refl 1) hfuel
  refine ⟨_, hloop, by simp, ?_⟩
  apply lem_retain_count
  intro r hr
  obtain ⟨p, hp, hrp⟩ := lem_rawConsumed_mem _ r hr
  obtain ⟨rs, rfl, hnull⟩ := hpages p hp
  simp only [pageOf] at hrp
  exact hnull r hrp

/-- C2, counterexample to the claim as stated: a shape-a day reporting
a total of one ticket, whose single raw ticket is neither excluded nor
missing an id, still retains zero tickets, so the count law fails for
the records-dict shape. -/
theorem C2_counterexample :
    fetch_all_tickets_for_date serverShapeA "2025-10-09" =
      some { result := Except.ok [],
             requests := [("created_at:2025-10-09", 1), ("created_at:2025-10-09", 1)] } ∧
    serverShapeA (buildQuery "2025-10-09" true) =
      [SearchPayload.dictRecords [sampleTicket] 1] ∧
    isExcludedRec sampleTicket = false ∧
    isMissingIdRec sampleTicket = false ∧
    ([] : List Ticket).length ≠ 1 := by
  refine ⟨by decide, rfl, by decide, by decide, by decide⟩

/-- C2, witness: the amended theorem applied to a concrete one-page
bare-list day. -/
theorem C2_witness :
    ∃ fr, fetch_all_tickets_for_date serverShapeC "2025-10-09" = some fr ∧
      fr.result = Except.ok (List.filterMap retainRecord
        (rawConsumed (pageLists (serverShapeC (buildQuery "2025-10-09" true))))) ∧
      (List.filterMap retainRecord
          (rawConsumed (pageLists (serverShapeC (buildQuery "2025-10-09" true))))).length
        + List.countP isExcludedRec
            (rawConsumed (pageLists (serverShapeC (buildQuery "2025-10-09" true))))
        + List.countP isMissingIdRec
            (rawConsumed (pageLists (serverShapeC (buildQuery "2025-10-09" true))))
        = (rawConsumed (pageLists (serverShapeC (buildQuery "2025-10-09" true)))).length := by
  apply C2_pagination_count
  intro p hp
  simp only [serverShapeC] at hp
  rw [List.mem_singleton] at hp
  subst hp
  exact ⟨[sampleTicket], rfl, by decide⟩

end Zammad

namespace Driver

theorem isLeap_iff (y : Nat) :
    isLeap y = true ↔ (y % 4 = 0 ∧ y % 100 ≠ 0) ∨ y % 400 = 0 := by
  simp [isLeap, Bool.or_eq_true, Bool.and_eq_true, beq_iff_eq, bne_iff_ne]

theorem leapsBefore_succ (y : Nat) (h : 1 ≤ y) :
    leapsBefore (y + 1) = leapsBefore y + (if isLeap y then 1 else 0) := by
  cases hL : isLeap y with
  | true =>
    have hiff := (isLeap_iff y).mp hL
    rw [if_pos rfl]
    unfold leapsBefore
    rcases hiff with ⟨h4, h100⟩ | h400 <;> omega
  | false =>
    have hiff : ¬((y % 4 = 0 ∧ y % 100 ≠ 0) ∨ y % 400 = 0) := by
      rw [← isLeap_iff, hL]
      simp
    push_neg at hiff
    rw [if_neg (by simp [hL])]
    unfold leapsBefore
    obtain ⟨h1, h2⟩ := hiff
    by_cases h4 : y % 4 = 0
    · have h100 : y % 100 = 0 := h1 h4
      omega
    · omega

theorem yearStart_succ (y : Nat) (h : 1 ≤ y) :
    yearStart (y + 1) = yearStart y + 365 + (if isLeap y then 1 else 0) := by
  unfold yearStart
  rw [leapsBefore_succ y h]
  have : y + 1 - 1 = y := by omega
  rw [this]
  have : 365 * y = 365 * (y - 1) + 365 := by omega
  omega

theorem yearStart_mono (k y : Nat) (h : 1 ≤ y) : yearStart y ≤ yearStart (y + k) := by
  induction k with
  | zero => exact le_refl _
  | succ k ih =>
    have hstep : yearStart (y + k + 1) = yearStart (y + k) + 365
        + (if isLeap (y + k) then 1 else 0) := yearStart_succ (y + k) (by omega)
    show yearStart y ≤ yearStart (y + k + 1)
    omega

theorem lem_valid_iff (dt : Date) :
    validDateB dt = true ↔ (1 ≤ dt.y ∧ dt.y ≤ 9999 ∧ 1 ≤ dt.m ∧ dt.m ≤ 12
      ∧ 1 ≤ dt.d ∧ dt.d ≤ daysInMonth dt.y dt.m) := by
  simp [validDateB, Bool.and_eq_true, decide_eq_true_eq, and_assoc]

theorem lem_dim_pos (y m : Nat) : 1 ≤ daysInMonth y m := by
  unfold daysInMonth
  split_ifs <;> omega

theorem lem_dim_le (y m : Nat) : daysInMonth y m ≤ 31 := by
  unfold daysInMonth
  split_ifs <;> omega

theorem lem_dbm_mono_strict (y m m2 : Nat) (h1 : 1 ≤ m) (hlt : m < m2) (h2 : m2 ≤ 12) :
    daysBeforeMonth y m + daysInMonth y m ≤ daysBeforeMonth y m2 := by
  have hm11 : m ≤ 11 := by omega
  interval_cases m <;> interval_cases m2 <;>
    simp [daysBeforeMonth, daysInMonth] <;> split_ifs <;> omega

theorem lem_dbm_year (y m d : Nat) (h1 : 1 ≤ m) (h2 : m ≤ 12) (hd : d ≤ daysInMonth y m) :
    daysBeforeMonth y m + d ≤ 365 + (if isLeap y then 1 else 0) := by
  interval_cases m <;> simp [daysBeforeMonth, daysInMonth] at hd ⊢ <;> split_ifs at hd ⊢ <;> omega

theorem lem_dbm_step (y m : Nat) (h1 : 1 ≤ m) (h2 : m ≤ 11) :
    daysBeforeMonth y (m + 1) = daysBeforeMonth y m + daysInMonth y m := by
  interval_cases m <;> simp [daysBeforeMonth, daysInMonth] <;> split_ifs <;> omega

theorem lem_ord_lt_of_lex (a b : Date) (ha : validDateB a = true) (hb : validDateB b = true)
    (h : a.y < b.y ∨ (a.y = b.y ∧ (a.m < b.m ∨ (a.m = b.m ∧ a.d < b.d)))) :
    dayOrdinal a < dayOrdinal b := by
  obtain ⟨hy1, hy2, hm1, hm2, hd1, hd2⟩ := (lem_valid_iff a).mp ha
  obtain ⟨hy1b, hy2b, hm1b, hm2b, hd1b, hd2b⟩ := (lem_valid_iff b).mp hb
  rcases h with hyy | ⟨hyy, hmm | ⟨hmm, hdd⟩⟩
  · have hbound := lem_dbm_year a.y a.m a.d hm1 hm2 hd2
    have hstep := yearStart_succ a.y hy1
    have hmono : yearStart (a.y + 1) ≤ yearStart b.y := by
      obtain ⟨k, hk⟩ : ∃ k, b.y = (a.y + 1) + k := ⟨b.y - (a.y + 1), by omega⟩
      rw [hk]
      exact yearStart_mono k (a.y + 1) (by omega)
    unfold dayOrdinal
    omega
  · have hmono := lem_dbm_mono_strict a.y a.m b.m hm1 hmm hm2b
    unfold dayOrdinal
    rw [← hyy]
    omega
  · unfold dayOrdinal
    rw [← hyy, ← hmm]
    omega

theorem lem_ord_inj (a b : Date) (ha : validDateB a = true) (hb : validDateB b = true)
    (h : dayOrdinal a = dayOrdinal b) : a = b := by
  by_contra hne
  have hcomp : ¬(a.y = b.y ∧ a.m = b.m ∧ a.d = b.d) := by
    intro ⟨h1, h2, h3⟩
    apply hne
    cases a
    cases b
    simp only at h1 h2 h3
    simp [h1, h2, h3]
  have hlex : (a.y < b.y ∨ (a.y = b.y ∧ (a.m < b.m ∨ (a.m = b.m ∧ a.d < b.d)))) ∨
      (b.y < a.y ∨ (b.y = a.y ∧ (b.m < a.m ∨ (b.m = a.m ∧ b.d < a.d)))) := by omega
  rcases hlex with hl | hl
  · exact absurd (lem_ord_lt_of_lex a b ha hb hl) (by omega)
  · exact absurd (lem_ord_lt_of_lex b a hb ha hl) (by omega)

theorem lem_ord_lt_iff (a b : Date) (ha : validDateB a = true) (hb : validDateB b = true) :
    (a.y < b.y ∨ (a.y = b.y ∧ (a.m < b.m ∨ (a.m = b.m ∧ a.d < b.d)))) ↔
      dayOrdinal a < dayOrdinal b := by
  constructor
  · exact lem_ord_lt_of_lex a b ha hb
  · intro hord
    by_cases hy : a.y = b.y
    · by_cases hm : a.m = b.m
      · by_cases hd : a.d = b.d
        · exfalso
          have : a = b := by
            cases a; cases b
            simp only at hy hm hd
            simp [hy, hm, hd]
          rw [this] at hord
          omega
        · rcases Nat.lt_or_ge a.d b.d with h3 | h3
          · exact Or.inr ⟨hy, Or.inr ⟨hm, h3⟩⟩
          · have h3b : b.d < a.d := by omega
            exact absurd (lem_ord_lt_of_lex b a hb ha
              (Or.inr ⟨hy.symm, Or.inr ⟨hm.symm, h3b⟩⟩)) (by omega)
      · rcases Nat.lt_or_ge a.m b.m with h2 | h2
        · exact Or.inr ⟨hy, Or.inl h2⟩
        · have h2b : b.m < a.m := by omega
          exact absurd (lem_ord_lt_of_lex b a hb ha (Or.inr ⟨hy.symm, Or.inl h2b⟩))
            (by omega)
    · rcases Nat.lt_or_ge a.y b.y with h1 | h1
      · exact Or.inl h1
      · have h1b : b.y < a.y := by omega
        exact absurd (lem_ord_lt_of_lex b a hb ha (Or.inl h1b)) (by omega)

theorem lem_dateLe_iff (a b : Date) (ha : validDateB a = true) (hb : validDateB b = true) :
    dateLe a b = true ↔ dayOrdinal a ≤ dayOrdinal b := by
  unfold dateLe
  simp only [Bool.or_eq_true, Bool.and_eq_true, decide_eq_true_eq, beq_iff_eq]
  constructor
  · rintro (h | ⟨hy, h | ⟨hm, hd⟩⟩)
    · exact le_of_lt (lem_ord_lt_of_lex a b ha hb (Or.inl h))
    · exact le_of_lt (lem_ord_lt_of_lex a b ha hb (Or.inr ⟨hy, Or.inl h⟩))
    · rcases Nat.lt_or_ge a.d b.d with h3 | h3
      · exact le_of_lt (lem_ord_lt_of_lex a b ha hb (Or.inr ⟨hy, Or.inr ⟨hm, h3⟩⟩))
      · have hdd : a.d = b.d := by omega
        have heq : a = b := by
          cases a; cases b
          simp only at hy hm hdd
          simp [hy, hm, hdd]
        rw [heq]
  · intro hord
    by_cases hlt : dayOrdinal a < dayOrdinal b
    · have := (lem_ord_lt_iff a b ha hb).mpr hlt
      omega
    · have heq : a = b := lem_ord_inj a b ha hb (by omega)
      rw [heq]
      omega

end Driver

namespace Driver

theorem lem_nextDay_valid (dt dt2 : Date) (h : validDateB dt = true)
    (hn : nextDay dt = Except.ok dt2) : validDateB dt2 = true := by
  obtain ⟨hy1, hy2, hm1, hm2, hd1, hd2⟩ := (lem_valid_iff dt).mp h
  unfold nextDay at hn
  split_ifs at hn with h1 h2 h3
  · obtain rfl := Except.ok.inj hn
    rw [lem_valid_iff]
    show 1 ≤ dt.y ∧ dt.y ≤ 9999 ∧ 1 ≤ dt.m ∧ dt.m ≤ 12 ∧ 1 ≤ dt.d + 1
      ∧ dt.d + 1 ≤ daysInMonth dt.y dt.m
    exact ⟨hy1, hy2, hm1, hm2, by omega, by omega⟩
  · obtain rfl := Except.ok.inj hn
    rw [lem_valid_iff]
    show 1 ≤ dt.y ∧ dt.y ≤ 9999 ∧ 1 ≤ dt.m + 1 ∧ dt.m + 1 ≤ 12 ∧ 1 ≤ 1
      ∧ 1 ≤ daysInMonth dt.y (dt.m + 1)
    exact ⟨hy1, hy2, by omega, by omega, le_refl 1, lem_dim_pos _ _⟩
  · obtain rfl := Except.ok.inj hn
    rw [lem_valid_iff]
    show 1 ≤ dt.y + 1 ∧ dt.y + 1 ≤ 9999 ∧ 1 ≤ 1 ∧ 1 ≤ 12 ∧ 1 ≤ 1
      ∧ 1 ≤ daysInMonth (dt.y + 1) 1
    exact ⟨by omega, by omega, le_refl 1, by omega, le_refl 1, lem_dim_pos _ _⟩

theorem lem_nextDay_ord (dt dt2 : Date) (h : validDateB dt = true)
    (hn : nextDay dt = Except.ok dt2) : dayOrdinal dt2 = dayOrdinal dt + 1 := by
  obtain ⟨hy1, hy2, hm1, hm2, hd1, hd2⟩ := (lem_valid_iff dt).mp h
  unfold nextDay at hn
  split_ifs at hn with h1 h2 h3
  · obtain rfl := Except.ok.inj hn
    show yearStart dt.y + daysBeforeMonth dt.y dt.m + (dt.d + 1)
      = yearStart dt.y + daysBeforeMonth dt.y dt.m + dt.d + 1
    omega
  · obtain rfl := Except.ok.inj hn
    have hstep := lem_dbm_step dt.y dt.m hm1 (by omega)
    have hdim : dt.d = daysInMonth dt.y dt.m := by omega
    show yearStart dt.y + daysBeforeMonth dt.y (dt.m + 1) + 1
      = yearStart dt.y + daysBeforeMonth dt.y dt.m + dt.d + 1
    omega
  · obtain rfl := Except.ok.inj hn
    have hm12 : dt.m = 12 := by omega
    have hdim : daysInMonth dt.y 12 = 31 := by
      unfold daysInMonth
      norm_num
    have hd31 : dt.d = 31 := by
      rw [hm12] at hd2 h1
      omega
    have hdbm12 : daysBeforeMonth dt.y 12 = 334 + (if isLeap dt.y then 1 else 0) := by
      simp [daysBeforeMonth]
    have hdbm1 : daysBeforeMonth (dt.y + 1) 1 = 0 := by
      simp [daysBeforeMonth]
    have hys := yearStart_succ dt.y hy1
    show yearStart (dt.y + 1) + daysBeforeMonth (dt.y + 1) 1 + 1
      = yearStart dt.y + daysBeforeMonth dt.y dt.m + dt.d + 1
    rw [hdbm1, hm12, hdbm12, hd31, hys]
    omega

theorem lem_nextDay_err (dt : Date) (h : validDateB dt = true) (e : String)
    (hn : nextDay dt = Except.error e) : dt = { y := 9999, m := 12, d := 31 } := by
  obtain ⟨hy1, hy2, hm1, hm2, hd1, hd2⟩ := (lem_valid_iff dt).mp h
  unfold nextDay at hn
  split_ifs at hn with h1 h2 h3
  have hm12 : dt.m = 12 := by omega
  have hy9999 : dt.y = 9999 := by omega
  have hdim : daysInMonth dt.y 12 = 31 := by
    unfold daysInMonth
    norm_num
  have hd31 : dt.d = 31 := by
    rw [hm12] at hd2 h1
    omega
  cases dt
  simp only at hm12 hy9999 hd31
  simp [hm12, hy9999, hd31]

theorem lem_valid_lt_max (dt : Date) (h : validDateB dt = true)
    (hne : dt ≠ { y := 9999, m := 12, d := 31 }) :
    dayOrdinal dt < dayOrdinal { y := 9999, m := 12, d := 31 } := by
  obtain ⟨hy1, hy2, hm1, hm2, hd1, hd2⟩ := (lem_valid_iff dt).mp h
  have hmax : validDateB { y := 9999, m := 12, d := 31 } = true := by decide
  apply lem_ord_lt_of_lex dt _ h hmax
  have hdle : dt.d ≤ 31 := le_trans hd2 (lem_dim_le _ _)
  have hcomp : ¬(dt.y = 9999 ∧ dt.m = 12 ∧ dt.d = 31) := by
    intro ⟨ha, hb, hc⟩
    apply hne
    cases dt
    simp only at ha hb hc
    simp [ha, hb, hc]
  show dt.y < 9999 ∨ (dt.y = 9999 ∧ (dt.m < 12 ∨ (dt.m = 12 ∧ dt.d < 31)))
  omega

end Driver

namespace Driver

theorem lem_parse_shape (cs : List Char) (dt : Date) (h : parseDateChars cs = some dt) :
    ∃ c1 c2 c3 c4 c5 c6 c7 c8 c9 c10,
      cs = [c1, c2, c3, c4, c5, c6, c7, c8, c9, c10] ∧
      (48 ≤ c1.toNat ∧ c1.toNat ≤ 57) ∧ (48 ≤ c2.toNat ∧ c2.toNat ≤ 57) ∧
      (48 ≤ c3.toNat ∧ c3.toNat ≤ 57) ∧ (48 ≤ c4.toNat ∧ c4.toNat ≤ 57) ∧
      c5.toNat = 45 ∧
      (48 ≤ c6.toNat ∧ c6.toNat ≤ 57) ∧ (48 ≤ c7.toNat ∧ c7.toNat ≤ 57) ∧
      c8.toNat = 45 ∧
      (48 ≤ c9.toNat ∧ c9.toNat ≤ 57) ∧ (48 ≤ c10.toNat ∧ c10.toNat ≤ 57) ∧
      dt.y = ((dval c1 * 10 + dval c2) * 10 + dval c3) * 10 + dval c4 ∧
      dt.m = dval c6 * 10 + dval c7 ∧
      dt.d = dval c9 * 10 + dval c10 ∧
      validDateB dt = true := by
  rcases cs with _ | ⟨c1, _ | ⟨c2, _ | ⟨c3, _ | ⟨c4, _ | ⟨c5, _ | ⟨c6, _ | ⟨c7,
    _ | ⟨c8, _ | ⟨c9, _ | ⟨c10, _ | ⟨c11, rest⟩⟩⟩⟩⟩⟩⟩⟩⟩⟩⟩ <;>
    try exact Option.noConfusion h
  case cons.cons.cons.cons.cons.cons.cons.cons.cons.cons.nil =>
    rw [parseDateChars] at h
    by_cases hg : (isDigitChar c1 && isDigitChar c2 && isDigitChar c3 && isDigitChar c4
        && (c5.toNat == 45) && isDigitChar c6 && isDigitChar c7
        && (c8.toNat == 45) && isDigitChar c9 && isDigitChar c10) = true
    · rw [if_pos hg] at h
      simp only [Bool.and_eq_true, isDigitChar, decide_eq_true_eq, beq_iff_eq] at hg
      obtain ⟨⟨⟨⟨⟨⟨⟨⟨⟨h1, h2⟩, h3⟩, h4⟩, h5⟩, h6⟩, h7⟩, h8⟩, h9⟩, h10⟩ := hg
      by_cases hv : validDateB
          { y := ((dval c1 * 10 + dval c2) * 10 + dval c3) * 10 + dval c4,
            m := dval c6 * 10 + dval c7, d := dval c9 * 10 + dval c10 } = true
      · rw [if_pos hv] at h
        obtain rfl := Option.some.inj h
        exact ⟨c1, c2, c3, c4, c5, c6, c7, c8, c9, c10, rfl, h1, h2, h3, h4, h5,
          h6, h7, h8, h9, h10, rfl, rfl, rfl, hv⟩
      · rw [if_neg hv] at h
        exact Option.noConfusion h
    · rw [if_neg hg] at h
      exact Option.noConfusion h

theorem lem_parse_valid (ss : String) (dt : Date) (h : parseDate ss = some dt) :
    validDateB dt = true := by
  obtain ⟨c1, c2, c3, c4, c5, c6, c7, c8, c9, c10, hcs, rest⟩ :=
    lem_parse_shape ss.data dt h
  exact rest.2.2.2.2.2.2.2.2.2.2.2.2.2

theorem lem_strLt_iff_ord (ss es : String) (a b : Date)
    (hs : parseDate ss = some a) (he : parseDate es = some b) :
    strLtB ss es = true ↔ dayOrdinal a < dayOrdinal b := by
  obtain ⟨c1, c2, c3, c4, c5, c6, c7, c8, c9, c10, hcs, hc1, hc2, hc3, hc4, hc5,
    hc6, hc7, hc8, hc9, hc10, hay, ham, had, hav⟩ := lem_parse_shape ss.data a hs
  obtain ⟨e1, e2, e3, e4, e5, e6, e7, e8, e9, e10, hes, he1, he2, he3, he4, he5,
    he6, he7, he8, he9, he10, hby, hbm, hbd, hbv⟩ := lem_parse_shape es.data b he
  have hay2 : a.y = (((c1.toNat - 48) * 10 + (c2.toNat - 48)) * 10 + (c3.toNat - 48)) * 10
      + (c4.toNat - 48) := by rw [hay]; simp [dval]
  have ham2 : a.m = (c6.toNat - 48) * 10 + (c7.toNat - 48) := by rw [ham]; simp [dval]
  have had2 : a.d = (c9.toNat - 48) * 10 + (c10.toNat - 48) := by rw [had]; simp [dval]
  have hby2 : b.y = (((e1.toNat - 48) * 10 + (e2.toNat - 48)) * 10 + (e3.toNat - 48)) * 10
      + (e4.toNat - 48) := by rw [hby]; simp [dval]
  have hbm2 : b.m = (e6.toNat - 48) * 10 + (e7.toNat - 48) := by rw [hbm]; simp [dval]
  have hbd2 : b.d = (e9.toNat - 48) * 10 + (e10.toNat - 48) := by rw [hbd]; simp [dval]
  have hchain : listLtB [c1, c2, c3, c4, c5, c6, c7, c8, c9, c10]
      [e1, e2, e3, e4, e5, e6, e7, e8, e9, e10] = true ↔
      (a.y < b.y ∨ (a.y = b.y ∧ (a.m < b.m ∨ (a.m = b.m ∧ a.d < b.d)))) := by
    simp only [listLtB, Bool.or_eq_true, Bool.and_eq_true, decide_eq_true_eq, beq_iff_eq,
      Bool.false_eq_true, and_false, or_false]
    rw [hay2, ham2, had2, hby2, hbm2, hbd2, hc5, hc8, he5, he8]
    omega
  rw [strLtB, hcs, hes, hchain]
  exact lem_ord_lt_iff a b hav hbv

end Driver

namespace Driver

open Zammad

theorem lem_dateRangeAux_head (fuel : Nat) (cur fin dt : Date)
    (h : (dateRangeAux fuel cur fin).head? = some dt) : dt = cur := by
  cases fuel with
  | zero => simp [dateRangeAux] at h
  | succ fuel =>
    rw [dateRangeAux.eq_2] at h
    by_cases hle : dateLe cur fin = true
    · rw [if_pos hle] at h
      simp at h
      exact h.symm
    · rw [if_neg hle] at h
      simp at h

theorem lem_dateRangeAux_mem (fuel : Nat) :
    ∀ cur fin, validDateB cur = true → validDateB fin = true →
      dayOrdinal fin + 1 - dayOrdinal cur ≤ fuel →
      ∀ dt, dt ∈ dateRangeAux fuel cur fin ↔
        (validDateB dt = true ∧ dayOrdinal cur ≤ dayOrdinal dt
          ∧ dayOrdinal dt ≤ dayOrdinal fin) := by
  induction fuel with
  | zero =>
    intro cur fin hcur hfin hfuel dt
    rw [show dateRangeAux 0 cur fin = [] from rfl]
    simp only [List.not_mem_nil, false_iff]
    rintro ⟨hv, h1, h2⟩
    omega
  | succ fuel ih =>
    intro cur fin hcur hfin hfuel dt
    rw [dateRangeAux.eq_2]
    by_cases hle : dateLe cur fin = true
    · have hcf := (lem_dateLe_iff cur fin hcur hfin).mp hle
      rw [if_pos hle]
      cases hn : nextDay cur with
      | error e =>
        have hcurmax := lem_nextDay_err cur hcur e hn
        rw [List.mem_cons]
        constructor
        · rintro (rfl | hmem)
          · exact ⟨hcur, le_refl _, hcf⟩
          · simp at hmem
        · rintro ⟨hv, h1, h2⟩
          left
          have hfinle : dayOrdinal fin ≤ dayOrdinal cur := by
            by_cases hfm : fin = { y := 9999, m := 12, d := 31 }
            · rw [hfm, ← hcurmax]
            · have := lem_valid_lt_max fin hfin hfm
              rw [← hcurmax] at this
              omega
          exact lem_ord_inj dt cur hv hcur (by omega)
      | ok c2 =>
        have hv2 := lem_nextDay_valid cur c2 hcur hn
        have ho2 := lem_nextDay_ord cur c2 hcur hn
        have hfuel2 : dayOrdinal fin + 1 - dayOrdinal c2 ≤ fuel := by omega
        rw [List.mem_cons, ih c2 fin hv2 hfin hfuel2 dt]
        constructor
        · rintro (rfl | ⟨hv, h1, h2⟩)
          · exact ⟨hcur, le_refl _, hcf⟩
          · exact ⟨hv, by omega, h2⟩
        · rintro ⟨hv, h1, h2⟩
          by_cases hdtc : dt = cur
          · exact Or.inl hdtc
          · right
            refine ⟨hv, ?_, h2⟩
            have hne : dayOrdinal cur ≠ dayOrdinal dt := by
              intro heq
              exact hdtc (lem_ord_inj dt cur hv hcur heq.symm)
            omega
    · rw [if_neg hle]
      have hgt : ¬(dayOrdinal cur ≤ dayOrdinal fin) := by
        intro hcf
        exact hle ((lem_dateLe_iff cur fin hcur hfin).mpr hcf)
      simp only [List.not_mem_nil, false_iff]
      rintro ⟨hv, h1, h2⟩
      omega

theorem lem_dateRangeAux_chain (fuel : Nat) :
    ∀ cur fin, validDateB cur = true →
      List.Chain' (fun x y => dayOrdinal x < dayOrdinal y) (dateRangeAux fuel cur fin) := by
  induction fuel with
  | zero =>
    intro cur fin hcur
    rw [show dateRangeAux 0 cur fin = [] from rfl]
    exact List.chain'_nil
  | succ fuel ih =>
    intro cur fin hcur
    rw [dateRangeAux.eq_2]
    by_cases hle : dateLe cur fin = true
    · rw [if_pos hle]
      cases hn : nextDay cur with
      | error e => simp
      | ok c2 =>
        have hv2 := lem_nextDay_valid cur c2 hcur hn
        have ho2 := lem_nextDay_ord cur c2 hcur hn
        refine List.chain'_cons'.mpr ⟨?_, ih c2 fin hv2⟩
        intro b hb
        have := lem_dateRangeAux_head fuel c2 fin b (by simpa using hb)
        subst this
        omega
    · rw [if_neg hle]
      exact List.chain'_nil

theorem lem_rangeLoop_spec (pd : String → Except String (List EnrichedTicket))
    (f : String → List EnrichedTicket) (hpd : ∀ s, pd s = Except.ok (f s)) (fuel : Nat) :
    ∀ cur fin acc visited, validDateB cur = true → validDateB fin = true →
      fin ≠ { y := 9999, m := 12, d := 31 } →
      dayOrdinal fin + 1 - dayOrdinal cur ≤ fuel →
      rangeLoop pd fuel cur fin acc visited =
        some { outcome := ApiOutcome.success
                 (acc ++ (List.map (fun dt => f (formatDate dt))
                   (dateRangeAux fuel cur fin)).flatten).length,
               visited := visited ++ List.map formatDate (dateRangeAux fuel cur fin),
               sank := [acc ++ (List.map (fun dt => f (formatDate dt))
                 (dateRangeAux fuel cur fin)).flatten] } := by
  induction fuel with
  | zero =>
    intro cur fin acc visited hcur hfin hne hfuel
    have hgt : dateLe cur fin = false := by
      rw [← Bool.not_eq_true]
      intro hle
      have := (lem_dateLe_iff cur fin hcur hfin).mp hle
      omega
    rw [rangeLoop.eq_1, hgt]
    rw [show dateRangeAux 0 cur fin = [] from rfl]
    simp
  | succ fuel ih =>
    intro cur fin acc visited hcur hfin hne hfuel
    rw [rangeLoop.eq_2, dateRangeAux.eq_2]
    by_cases hle : dateLe cur fin = true
    · rw [if_pos hle, if_pos hle, hpd (formatDate cur)]
      have hcf := (lem_dateLe_iff cur fin hcur hfin).mp hle
      cases hn : nextDay cur with
      | error e =>
        exfalso
        have hcurmax := lem_nextDay_err cur hcur e hn
        have := lem_valid_lt_max fin hfin hne
        rw [← hcurmax] at this
        omega
      | ok c2 =>
        have hv2 := lem_nextDay_valid cur c2 hcur hn
        have ho2 := lem_nextDay_ord cur c2 hcur hn
        have hfuel2 : dayOrdinal fin + 1 - dayOrdinal c2 ≤ fuel := by omega
        dsimp only
        rw [ih c2 fin (acc ++ f (formatDate cur)) (visited ++ [formatDate cur])
          hv2 hfin hne hfuel2]
        simp [List.append_assoc]
    · rw [if_neg hle, if_neg hle]
      simp

end Driver

namespace Driver

open Zammad

/-- C7.  Amended range driver law: for a valid pair of dates with start
not after end, when every process_day call succeeds and the end date is
not 9999-12-31, the driver hands process_day each calendar day of the
inclusive range exactly once (the visited list is the formatted date
range, whose membership is exactly the valid dates between the bounds
and which is strictly increasing), concatenates the per-day records in
that order, and hands the batch to the CSV sink exactly once.  When the
end date is 9999-12-31 the date increment overflows after the last day
and the request ends in a server error without reaching the sink (see
the counterexample). -/
theorem C7_range_driver (pd : String → Except String (List EnrichedTicket))
    (f : String → List EnrichedTicket) (hpd : ∀ s, pd s = Except.ok (f s))
    (ss es : String) (a b : Date)
    (hs : parseDate ss = some a) (he : parseDate es = some b)
    (hab : dayOrdinal a ≤ dayOrdinal b)
    (hbmax : b ≠ { y := 9999, m := 12, d := 31 }) :
    get_ticket_data pd ss es =
      some { outcome := ApiOutcome.success
               ((List.map (fun dt => f (formatDate dt)) (dateRange a b)).flatten).length,
             visited := List.map formatDate (dateRange a b),
             sank := [(List.map (fun dt => f (formatDate dt)) (dateRange a b)).flatten] } ∧
    (∀ dt, dt ∈ dateRange a b ↔ (validDateB dt = true ∧
      dayOrdinal a ≤ dayOrdinal dt ∧ dayOrdinal dt ≤ dayOrdinal b)) ∧
    List.Chain' (fun x y => dayOrdinal x < dayOrdinal y) (dateRange a b) := by
  have hav := lem_parse_valid ss a hs
  have hbv := lem_parse_valid es b he
  refine ⟨?_, lem_dateRangeAux_mem _ a b hav hbv (le_refl _),
    lem_dateRangeAux_chain _ a b hav⟩
  have hstr : strLtB es ss = false := by
    cases hx : strLtB es ss with
    | false => rfl
    | true => exact absurd ((lem_strLt_iff_ord es ss b a he hs).mp hx) (by omega)
  have hcond : ¬(strLtB es ss = true) := by
    rw [hstr]
    exact Bool.false_ne_true
  unfold get_ticket_data
  simp only [hs, he]
  rw [if_neg hcond]
  rw [lem_rangeLoop_spec pd f hpd (rangeFuel a b) a b [] [] hav hbv hbmax (le_refl _)]
  simp [dateRange]

/-- C7, counterexample to the claim as stated: the valid one-day range
ending at 9999-12-31, with a process_day that succeeds, is reported as
a server error and the CSV sink is never called, because incrementing
the date past MAXYEAR raises OverflowError after the day is processed. -/
theorem C7_counterexample :
    get_ticket_data (fun _ => Except.ok ([] : List EnrichedTicket))
        "9999-12-31" "9999-12-31" =
      some { outcome := ApiOutcome.internalError, visited := ["9999-12-31"], sank := [] } ∧
    (∀ total : Nat, ApiOutcome.internalError ≠ ApiOutcome.success total) := by
  constructor
  · decide
  · intro total
    exact ApiOutcome.noConfusion

/-- C7, witness: the amended theorem applied to the concrete two-day
range with an empty per-day result. -/
theorem C7_witness :
    get_ticket_data (fun _ => Except.ok ([] : List EnrichedTicket))
        "2025-10-09" "2025-10-10" =
      some { outcome := ApiOutcome.success 0,
             visited := ["2025-10-09", "2025-10-10"], sank := [[]] } ∧
    (∀ dt, dt ∈ dateRange { y := 2025, m := 10, d := 9 } { y := 2025, m := 10, d := 10 } ↔
      (validDateB dt = true ∧ dayOrdinal { y := 2025, m := 10, d := 9 } ≤ dayOrdinal dt
        ∧ dayOrdinal dt ≤ dayOrdinal { y := 2025, m := 10, d := 10 })) ∧
    List.Chain' (fun x y => dayOrdinal x < dayOrdinal y)
      (dateRange { y := 2025, m := 10, d := 9 } { y := 2025, m := 10, d := 10 }) := by
  exact C7_range_driver (fun _ => Except.ok []) (fun _ => []) (fun s => rfl)
    "2025-10-09" "2025-10-10" { y := 2025, m := 10, d := 9 } { y := 2025, m := 10, d := 10 }
    (by decide) (by decide) (by decide) (by decide)

/-- C8.  Input validation of the endpoint: a request whose start or end
date does not parse as a valid calendar date, or whose start string
compares greater than its end string, is answered with the 400 outcome
with no day processed and no CSV write, for every possible day
processor (hence before any network call), and the 400 outcome is
distinct from the 500 outcome; moreover, on accepted date strings the
lexicographic string comparison used by the range check agrees exactly
with calendar-date order (the proleptic Gregorian ordinal). -/
theorem C8_date_validation (pd : String → Except String (List EnrichedTicket))
    (ss es : String) :
    ((parseDate ss = none ∨ parseDate es = none) →
      get_ticket_data pd ss es =
        some { outcome := ApiOutcome.badRequest, visited := [], sank := [] }) ∧
    (∀ a b, parseDate ss = some a → parseDate es = some b → strLtB es ss = true →
      get_ticket_data pd ss es =
        some { outcome := ApiOutcome.badRequest, visited := [], sank := [] }) ∧
    (∀ a b, parseDate ss = some a → parseDate es = some b →
      (strLtB ss es = true ↔ dayOrdinal a < dayOrdinal b)) ∧
    ApiOutcome.badRequest ≠ ApiOutcome.internalError := by
  refine ⟨?_, ?_, ?_, by decide⟩
  · intro h
    unfold get_ticket_data
    cases hps : parseDate ss with
    | none => rfl
    | some a =>
      cases hpe : parseDate es with
      | none => rfl
      | some b =>
        rw [hps] at h
        rw [hpe] at h
        rcases h with h | h <;> exact Option.noConfusion h
  · intro a b hsa hsb hlt
    unfold get_ticket_data
    simp only [hsa, hsb]
    rw [if_pos hlt]
  · intro a b hsa hsb
    exact lem_strLt_iff_ord ss es a b hsa hsb

/-- C8, witness: a malformed start date is rejected with 400 for a
concrete day processor, and the string comparison of two concrete
accepted dates agrees with their ordinals. -/
theorem C8_witness :
    get_ticket_data (fun _ => Except.ok ([] : List EnrichedTicket))
        "2025-13-01" "2025-01-02" =
      some { outcome := ApiOutcome.badRequest, visited := [], sank := [] } ∧
    (strLtB "2025-10-09" "2025-10-10" = true ↔
      dayOrdinal { y := 2025, m := 10, d := 9 } < dayOrdinal { y := 2025, m := 10, d := 10 }) := by
  constructor
  · exact (C8_date_validation (fun _ => Except.ok []) "2025-13-01" "2025-01-02").1
      (Or.inl (by decide))
  · exact (C8_date_validation (fun _ => Except.ok ([] : List EnrichedTicket))
      "2025-10-09" "2025-10-10").2.2.1
      { y := 2025, m := 10, d := 9 } { y := 2025, m := 10, d := 10 } (by decide) (by decide)

end Driver
